import Mathlib

/-!
Verification of the spreadsheet formula engine in `src/Grid.tsx`.

The TypeScript source is shallowly embedded: each definition below mirrors one
source function (names are kept).  JavaScript strings are modelled as Lean
strings / character lists, JavaScript array indexing (`a[i]`, which yields
`undefined` out of range, and throws when indexing into `undefined`) is
modelled explicitly, and JavaScript numbers are modelled by `JsNumber`, an
exact (unnormalised) rational: every computation exercised by the claims stays
on small integers, where IEEE doubles and exact rationals agree.  `Number(s)`
string-to-number conversion is modelled for decimal literals (including the
empty string, which converts to 0); hexadecimal/binary/octal and Infinity
forms do not occur in any claim.  The recursive `value` getter and the
recursive cycle walk `hasLoop` are total in TypeScript only thanks to the
acyclicity invariant; here they take an explicit fuel parameter, with
`JsOutcome.diverges` marking fuel exhaustion (i.e. nontermination of the
original recursion) and `JsOutcome.throws` marking a thrown TypeError.
-/

namespace Excel

/-- JavaScript numbers, modelled as an exact unnormalised fraction `num / den`.
All arithmetic used by the formula engine (sum and product folds over parsed
literals) keeps `den = 1`, so structural equality coincides with numeric
equality everywhere the claims evaluate. -/
structure JsNumber where
  num : Int
  den : Int
deriving DecidableEq

instance : OfNat JsNumber n := ⟨⟨n, 1⟩⟩

/-- JavaScript `+` on numbers. -/
def JsNumber.add (a b : JsNumber) : JsNumber :=
  ⟨a.num * b.den + b.num * a.den, a.den * b.den⟩

/-- JavaScript `*` on numbers. -/
def JsNumber.mul (a b : JsNumber) : JsNumber :=
  ⟨a.num * b.num, a.den * b.den⟩

/-- Negation, for parsing signed numeric literals. -/
def JsNumber.neg (a : JsNumber) : JsNumber := ⟨-a.num, a.den⟩

/-- Multiplication by a power of ten, for the exponent part of a literal. -/
def JsNumber.shiftPow10 (a : JsNumber) (negExp : Bool) (e : Nat) : JsNumber :=
  if negExp then ⟨a.num, a.den * (10 : Int) ^ e⟩ else ⟨a.num * (10 : Int) ^ e, a.den⟩

/-- JavaScript truthiness of a number: `0` (any representation of zero) is falsy. -/
def JsNumber.isZero (a : JsNumber) : Bool := a.num == 0

/-- Safe list indexing, modelling JavaScript `a[i]` on an array:
out-of-range access yields `undefined`, modelled as `none`. -/
def nth : List α → Nat → Option α
  | [], _ => none
  | a :: _, 0 => some a
  | _ :: as, n + 1 => nth as n

/-- In-range list update, modelling JavaScript `a[i] = v` for `i < a.length`
(the only way the source writes: every slot written exists beforehand). -/
def setNth : List α → Nat → α → List α
  | [], _, _ => []
  | _ :: as, 0, b => b :: as
  | a :: as, n + 1, b => a :: setNth as n b

/-- JavaScript `String.prototype.split(",")`: note `"".split(",") === [""]`,
one empty field, never an empty array. -/
def splitOnComma : List Char → List (List Char)
  | [] => [[]]
  | c :: cs =>
    if c = ',' then [] :: splitOnComma cs
    else
      match splitOnComma cs with
      | [] => [[c]]
      | g :: gs => (c :: g) :: gs

/-- ASCII whitespace trimmed by `String.prototype.trim` (the Unicode spaces it
also trims never occur in the claims). -/
def isJsWhitespace (c : Char) : Bool :=
  c == ' ' || c == '\t' || c == '\n' || c == '\r' || c == '\x0b' || c == '\x0c'

/-- JavaScript `String.prototype.trim`. -/
def jsTrim (cs : List Char) : List Char :=
  ((cs.dropWhile isJsWhitespace).reverse.dropWhile isJsWhitespace).reverse

/-- Numeric value of one decimal digit character. -/
def digitVal (c : Char) : Nat := c.toNat - '0'.toNat

/-- Value of a string of decimal digits (how both the row number of a reference
and the digits of a numeric literal are read). -/
def digitsToNat (cs : List Char) : Nat :=
  cs.foldl (fun acc c => acc * 10 + digitVal c) 0

/-- One ASCII letter, the character class `[A-Z]` under the regex `i` flag. -/
def isAsciiLetter (c : Char) : Bool :=
  ('A' ≤ c && c ≤ 'Z') || ('a' ≤ c && c ≤ 'z')

/-- The display alphabet: the 26 column letters (`alphabet` in the source). -/
def alphabet : List Char := "ABCDEFGHIJKLMNOPQRSTUVWXYZ".toList

/-- Index of the first occurrence of a character, JavaScript
`String.prototype.indexOf` (`-1` becomes `none`). -/
def charIndexOf : List Char → Char → Option Nat
  | [], _ => none
  | c :: cs, t => if c = t then some 0 else (charIndexOf cs t).map (· + 1)

/-- The dictionary `alphabetToIdx`, built from `alphabet`; a letter's column
index.  Every upper-case ASCII letter is present, so the `getD` default is
never used on inputs accepted by the reference regex. -/
def alphabetToIdx (c : Char) : Nat := (charIndexOf alphabet c).getD 0

/-- Exponent suffix of a decimal literal: `e`/`E`, optional sign, digits.
`rest` must be empty or a well-formed exponent, otherwise the literal is NaN. -/
def parseExpPart (mant : JsNumber) (cs : List Char) : Option JsNumber :=
  match cs with
  | [] => some mant
  | e :: rest =>
    if e = 'e' ∨ e = 'E' then
      match rest with
      | '+' :: ds =>
        if ds ≠ [] ∧ ds.all Char.isDigit then some (mant.shiftPow10 false (digitsToNat ds)) else none
      | '-' :: ds =>
        if ds ≠ [] ∧ ds.all Char.isDigit then some (mant.shiftPow10 true (digitsToNat ds)) else none
      | ds =>
        if ds ≠ [] ∧ ds.all Char.isDigit then some (mant.shiftPow10 false (digitsToNat ds)) else none
    else none

/-- Unsigned decimal literal: digits, optional `.` and fraction digits,
optional exponent; at least one digit overall. -/
def parseUnsignedNumber (cs : List Char) : Option JsNumber :=
  let intPart := cs.takeWhile Char.isDigit
  let rest := cs.dropWhile Char.isDigit
  match rest with
  | '.' :: rest2 =>
    let fracPart := rest2.takeWhile Char.isDigit
    let rest3 := rest2.dropWhile Char.isDigit
    if intPart.isEmpty ∧ fracPart.isEmpty then none
    else parseExpPart ⟨(digitsToNat (intPart ++ fracPart) : Int), (10 : Int) ^ fracPart.length⟩ rest3
  | _ =>
    if intPart.isEmpty then none
    else parseExpPart ⟨(digitsToNat intPart : Int), 1⟩ rest

/-- JavaScript `Number(s)` on decimal notation: trims, converts the empty
(or all-whitespace) string to `0`, accepts an optional sign and a decimal
literal, and yields `none` for NaN. -/
def jsNumber (s : String) : Option JsNumber :=
  let t := jsTrim s.toList
  if t.isEmpty then some 0
  else
    match t with
    | '+' :: rest => parseUnsignedNumber rest
    | '-' :: rest => (parseUnsignedNumber rest).map JsNumber.neg
    | _ => parseUnsignedNumber t

/-- A coordinate pair: `x` is the column, `y` the row (`type Address`). -/
structure Address where
  x : Nat
  y : Nat
deriving DecidableEq

/-- `eqAddress` from the source. -/
def eqAddress (a b : Address) : Bool := a.x == b.x && a.y == b.y

/-- A cell holds its raw text (`class Cell`; the `state` back-reference is
modelled by passing the state explicitly to evaluation). -/
structure Cell where
  raw : String
deriving DecidableEq

/-- `type State = (Cell | null)[][]`, indexed `[row][column]`. -/
abbrev State := List (List (Option Cell))

/-- Outcome of a JavaScript computation that does not return normally:
a thrown TypeError, or nontermination (fuel exhaustion of the model). -/
inductive JsOutcome
  | throws
  | diverges
deriving DecidableEq

/-- What `state[address.y][address.x]` evaluates to when the row exists:
`undefined` (column out of range), `null`, or a cell. -/
inductive Slot
  | undef
  | null
  | cell (c : Cell)
deriving DecidableEq

/-- `lookupCell(state, address) => state[address.y][address.x]`.
When `state[address.y]` is `undefined` (row out of range), indexing it throws
a TypeError. -/
def lookupCell (state : State) (address : Address) : Except JsOutcome Slot :=
  match nth state address.y with
  | none => .error .throws
  | some row =>
    .ok (match nth row address.x with
         | none => .undef
         | some none => .null
         | some (some c) => .cell c)

/-- `insertCell(state, address, cell) => state[address.y][address.x] = cell`
(assignment into an `undefined` row would throw). -/
def insertCell (state : State) (address : Address) (cell : Cell) : Except JsOutcome State :=
  match nth state address.y with
  | none => .error .throws
  | some row => .ok (setNth state address.y (setNth row address.x (some cell)))

/-- `type NumericArgs = { type: "const"; num: number } | RefArg`. -/
inductive NumericArgs
  | const (num : JsNumber)
  | ref (address : Address)
deriving DecidableEq

/-- `type CellParsed`. -/
inductive CellParsed
  | const
  | invalid
  | ref (address : Address)
  | sum (args : List NumericArgs)
  | product (args : List NumericArgs)
deriving DecidableEq

/-- Address of a `ref` argument, `none` for a `const` one; `filterMap` over it
is the source's `args.filter(isRefArg).map((x) => x.address)`. -/
def refArgAddress : NumericArgs → Option Address
  | .ref address => some address
  | .const _ => none

/-- `dependencies(parsed)` from the source. -/
def dependencies : CellParsed → List Address
  | .const => []
  | .invalid => []
  | .ref address => [address]
  | .sum args => args.filterMap refArgAddress
  | .product args => args.filterMap refArgAddress

/-- `parseRef`: the regex `/^([A-Z])([0-9]+)$/i` — exactly one ASCII letter,
then one or more digits — mapping the letter through `alphabetToIdx` (after
upper-casing) and the digits through `Number`. -/
def parseRef (argTrimmed : String) : Option Address :=
  match argTrimmed.toList with
  | [] => none
  | c :: rest =>
    if isAsciiLetter c && !rest.isEmpty && rest.all Char.isDigit then
      some ⟨alphabetToIdx c.toUpper, digitsToNat rest⟩
    else none

/-- Body of the loop in `parseNumericArgs`: one argument string is trimmed and
read as a cell reference, else as a numeric literal, else the whole call fails. -/
def parseOneArg (arg : String) : Option NumericArgs :=
  let argTrimmed := String.mk (jsTrim arg.toList)
  match parseRef argTrimmed with
  | some address => some (.ref address)
  | none =>
    match jsNumber argTrimmed with
    | some num => some (.const num)
    | none => none

/-- `parseNumericArgs(argsStrings)`: every argument must parse, and the
resulting list must be non-empty (`args.length === 0` yields `null`). -/
def parseNumericArgs (argsStrings : List String) : Option (List NumericArgs) :=
  match argsStrings.mapM parseOneArg with
  | none => none
  | some args => if args.length = 0 then none else some args

/-- `parseCellContents(value)`: trim; no leading `=` means a literal; then
either a bare reference, or `name(arg,...,arg)` with name `sum`/`product`
case-insensitively, closed by a final `)`.  (The source checks the final `)`
twice in a row; that has no semantic effect.) -/
def parseCellContents (value : String) : CellParsed :=
  let val := jsTrim value.toList
  match val with
  | [] => .const
  | c :: _ =>
    if c ≠ '=' then .const
    else
      match charIndexOf val '(' with
      | none =>
        match parseRef (String.mk (jsTrim (val.drop 1))) with
        | some address => .ref address
        | none => .invalid
      | some openParenPos =>
        let func := ((val.drop 1).take (openParenPos - 1)).map Char.toLower
        let argsWithParens := val.drop openParenPos
        match argsWithParens.getLast? with
        | some ')' =>
          let argsStrings := (splitOnComma (argsWithParens.drop 1).dropLast).map String.mk
          if func = "sum".toList then
            match parseNumericArgs argsStrings with
            | some args => .sum args
            | none => .invalid
          else if func = "product".toList then
            match parseNumericArgs argsStrings with
            | some args => .product args
            | none => .invalid
          else .invalid
        | _ => .invalid

/-- `type Monoid<number>` specialised to numbers, as the source uses it. -/
structure Monoid where
  empty : JsNumber
  concat : JsNumber → JsNumber → JsNumber

/-- The `sum` monoid: identity 0, operator `+`. -/
def sum : Monoid := ⟨0, JsNumber.add⟩

/-- The `product` monoid: identity 1, operator `*`. -/
def product : Monoid := ⟨1, JsNumber.mul⟩

/-- A displayed value: `string | number`. -/
inductive Value
  | str (s : String)
  | num (n : JsNumber)
deriving DecidableEq

/-- JavaScript truthiness test used by `... || ""`: the empty string and the
number 0 are falsy. -/
def jsFalsy : Value → Bool
  | .str s => s == ""
  | .num n => n.isZero

/-- `asNumber(x, def)`: `Number(x)`, or the default when that is NaN. -/
def asNumber (x : String) (d : JsNumber) : JsNumber :=
  match jsNumber x with
  | some num => num
  | none => d

/-- `readNumber(cell, def)`: `undefined`/`null` cells give the default; a
cell's value is used directly when numeric, else coerced via `asNumber`.
The cell's `value` getter is supplied as `evalC` (in the source it reaches the
grid through the cell's back-reference). -/
def readNumber (evalC : Cell → Except JsOutcome Value) (cell : Slot) (d : JsNumber) :
    Except JsOutcome JsNumber :=
  match cell with
  | .undef => .ok d
  | .null => .ok d
  | .cell c =>
    match evalC c with
    | .error e => .error e
    | .ok (.num n) => .ok n
    | .ok (.str s) => .ok (asNumber s d)

/-- The loop of `evalNumericFunction`, with `res` the accumulator. -/
def evalNumericFunctionAux (state : State) (evalC : Cell → Except JsOutcome Value)
    (m : Monoid) : JsNumber → List NumericArgs → Except JsOutcome JsNumber
  | res, [] => .ok res
  | res, arg :: rest =>
    match arg with
    | .const num => evalNumericFunctionAux state evalC m (m.concat res num) rest
    | .ref address =>
      match lookupCell state address with
      | .error e => .error e
      | .ok slot =>
        match readNumber evalC slot m.empty with
        | .error e => .error e
        | .ok n => evalNumericFunctionAux state evalC m (m.concat res n) rest

/-- `evalNumericFunction(state, args, m)`. -/
def evalNumericFunction (state : State) (evalC : Cell → Except JsOutcome Value)
    (args : List NumericArgs) (m : Monoid) : Except JsOutcome JsNumber :=
  evalNumericFunctionAux state evalC m m.empty args

/-- Body of the `value` getter, with the recursive re-entry (through
referenced cells' `value` getters) abstracted as `evalC`. -/
def valueGo (state : State) (evalC : Cell → Except JsOutcome Value) (cell : Cell) :
    Except JsOutcome Value :=
  match parseCellContents cell.raw with
  | .const => .ok (.str cell.raw)
  | .invalid => .ok (.str "INVALID")
  | .ref address =>
    match lookupCell state address with
    | .error e => .error e
    | .ok .undef => .ok (.str "")
    | .ok .null => .ok (.str "")
    | .ok (.cell c) =>
      match evalC c with
      | .error e => .error e
      | .ok v => .ok (if jsFalsy v then .str "" else v)
  | .sum args => (evalNumericFunction state evalC args sum).map .num
  | .product args => (evalNumericFunction state evalC args product).map .num

/-- The `value` getter of `Cell`, with fuel bounding the recursion depth
through `ref` chains (unbounded in the source). -/
def value (state : State) : Nat → Cell → Except JsOutcome Value
  | 0, _ => .error .diverges
  | fuel + 1, cell => valueGo state (fun c => value state fuel c) cell

/-- `makeMatrix(cols, rows)`: every slot of the fresh grid is occupied by a
cell with empty raw text. -/
def makeMatrix (cols rows : Nat) : State :=
  List.replicate rows (List.replicate cols (some ⟨""⟩))

/-- `Array.prototype.some` with a short-circuiting callback that may throw
(or, in the model, run out of fuel). -/
def someExcept (f : α → Except ε Bool) : List α → Except ε Bool
  | [] => .ok false
  | a :: as =>
    match f a with
    | .error e => .error e
    | .ok true => .ok true
    | .ok false => someExcept f as

/-- The inner recursive `hasLoop` of `hasDependencyCycle`: a frontier address
equal to the edited address is a cycle; otherwise recurse into the committed
dependencies of the cell there, if any (`==` null is loose, so both `null`
and `undefined` slots stop the walk). -/
def hasLoop (state : State) (address : Address) : Nat → Address → Except JsOutcome Bool
  | 0, _ => .error .diverges
  | fuel + 1, depAddress =>
    if eqAddress address depAddress then .ok true
    else
      match lookupCell state depAddress with
      | .error e => .error e
      | .ok .undef => .ok false
      | .ok .null => .ok false
      | .ok (.cell depCel) =>
        someExcept (fun a => hasLoop state address fuel a)
          (dependencies (parseCellContents depCel.raw))

/-- `hasDependencyCycle(state, address, value)`. -/
def hasDependencyCycle (state : State) (address : Address) (value : String) (fuel : Nat) :
    Except JsOutcome Bool :=
  someExcept (fun a => hasLoop state address fuel a)
    (dependencies (parseCellContents value))

/-- `newValue(state, address, value)`: insert a fresh cell into a `null` slot,
or mutate the existing cell's `raw` (an `undefined` slot would make
`cell.setRaw` throw); both realised as the same functional slot update. -/
def newValue (state : State) (address : Address) (value : String) : Except JsOutcome State :=
  match lookupCell state address with
  | .error e => .error e
  | .ok .null => insertCell state address ⟨value⟩
  | .ok .undef => .error .throws
  | .ok (.cell _) => insertCell state address ⟨value⟩

/-- Result of committing an edit: rejected by the cycle check (grid returned
as-is), or committed (grid with the slot updated). -/
inductive ProposeResult
  | cycleRejected (state : State)
  | committed (state : State)
deriving DecidableEq

/-- The grid state a propose result carries. -/
def ProposeResult.state : ProposeResult → State
  | .cycleRejected s => s
  | .committed s => s

/-- The `onBlur` mutation gate: run `hasDependencyCycle` on the candidate; on
a detected cycle alert and return with the grid untouched, otherwise commit
through `newValue`. -/
def proposeEdit (state : State) (address : Address) (edit : String) (fuel : Nat) :
    Except JsOutcome ProposeResult :=
  match hasDependencyCycle state address edit fuel with
  | .error e => .error e
  | .ok true => .ok (.cycleRejected state)
  | .ok false =>
    match newValue state address edit with
    | .error e => .error e
    | .ok s => .ok (.committed s)

/-- The row at index `y` (default `[]` only for out-of-range rows). -/
def rowAt (state : State) (y : Nat) : List (Option Cell) :=
  (nth state y).getD []

/-- An address within the grid's dimensions. -/
def inBounds (state : State) (a : Address) : Prop :=
  a.y < state.length ∧ a.x < (rowAt state a.y).length

instance (state : State) (a : Address) : Decidable (inBounds state a) :=
  inferInstanceAs (Decidable (_ ∧ _))

/-- Every in-bounds slot is occupied by a cell. -/
def occupied (state : State) : Prop :=
  ∀ a, inBounds state a → ∃ c, lookupCell state a = .ok (.cell c)

/-- The committed cell at an address, if the slot exists and is occupied. -/
def committedCell (state : State) (a : Address) : Option Cell :=
  match lookupCell state a with
  | .ok (.cell c) => some c
  | _ => none

/-- One committed dependency edge: the cell at `a` directly references `b`. -/
def depEdge (state : State) (a b : Address) : Prop :=
  ∃ c, committedCell state a = some c ∧ b ∈ dependencies (parseCellContents c.raw)

/-- The candidate text, committed at `address`, would make that cell depend on
itself: some direct reference of the candidate reaches `address` through
already-committed dependency edges. -/
def dependsOnSelf (state : State) (address : Address) (value : String) : Prop :=
  ∃ d ∈ dependencies (parseCellContents value),
    Relation.ReflTransGen (depEdge state) d address

/-- All addresses whose slot holds a committed cell (a finite enumeration). -/
def committedAddrs (state : State) : List Address :=
  ((List.range state.length).map fun y =>
    (List.range (rowAt state y).length).filterMap fun x =>
      match nth (rowAt state y) x with
      | some (some _) => some (Address.mk x y)
      | _ => none).flatten

/-- A cell with empty raw text. -/
def emptyCell : Cell := ⟨""⟩

/-- A 2×2 grid of empty cells (rows 0 and 1, columns A and B). -/
def gridAllEmpty : State :=
  [[some emptyCell, some emptyCell], [some emptyCell, some emptyCell]]

/-- A 2×2 grid where cell A1 holds the formula `=B1`. -/
def gridRefChain : State :=
  [[some emptyCell, some emptyCell], [some ⟨"=B1"⟩, some emptyCell]]

/-- A 2×2 grid where A1 holds `=B1` and B1 holds `=SUM(0)` (so B1's value is
the number 0). -/
def gridZero : State :=
  [[some emptyCell, some emptyCell], [some ⟨"=B1"⟩, some ⟨"=SUM(0)"⟩]]

/-- A 2×2 grid whose A1 slot is `null` (genuinely absent cell). -/
def gridNullSlot : State :=
  [[some emptyCell, some emptyCell], [none, some emptyCell]]

/-- A 2×2 grid where cell A0 holds the literal text `0`. -/
def gridTextZero : State :=
  [[some ⟨"0"⟩, some emptyCell], [some emptyCell, some emptyCell]]

deriving instance DecidableEq for Except

theorem nth_nil (n : Nat) : nth ([] : List α) n = none := rfl

theorem nth_eq_none_iff {l : List α} {n : Nat} : nth l n = none ↔ l.length ≤ n := by
  induction l generalizing n with
  | nil => simp [nth]
  | cons a as ih =>
    cases n with
    | zero => simp [nth]
    | succ n => simpa [nth, Nat.succ_le_succ_iff] using ih

theorem nth_lt_length {l : List α} {n : Nat} {a : α} (h : nth l n = some a) : n < l.length := by
  by_contra hn
  rw [nth_eq_none_iff.mpr (Nat.le_of_not_lt hn)] at h
  exact Option.noConfusion h

theorem nth_of_lt {l : List α} {n : Nat} (h : n < l.length) : ∃ a, nth l n = some a := by
  cases ha : nth l n with
  | some a => exact ⟨a, rfl⟩
  | none => exact absurd (nth_eq_none_iff.mp ha) (Nat.not_le_of_lt h)

theorem length_setNth (l : List α) (n : Nat) (b : α) : (setNth l n b).length = l.length := by
  induction l generalizing n with
  | nil => rfl
  | cons a as ih =>
    cases n with
    | zero => rfl
    | succ n => simpa [setNth] using ih n

theorem nth_setNth_self {l : List α} {n : Nat} (h : n < l.length) (b : α) :
    nth (setNth l n b) n = some b := by
  induction l generalizing n with
  | nil => exact absurd h (by simp)
  | cons a as ih =>
    cases n with
    | zero => rfl
    | succ n => exact ih (Nat.lt_of_succ_lt_succ h)

theorem nth_setNth_ne {l : List α} {n m : Nat} (h : n ≠ m) (b : α) :
    nth (setNth l n b) m = nth l m := by
  induction l generalizing n m with
  | nil => rfl
  | cons a as ih =>
    cases n with
    | zero =>
      cases m with
      | zero => exact absurd rfl h
      | succ m => rfl
    | succ n =>
      cases m with
      | zero => rfl
      | succ m => exact ih (fun he => h (by rw [he]))

theorem nth_replicate {n k : Nat} {a : α} (h : k < n) :
    nth (List.replicate n a) k = some a := by
  induction n generalizing k with
  | zero => exact absurd h (Nat.not_lt_zero k)
  | succ n ih =>
    cases k with
    | zero => rfl
    | succ k => exact ih (Nat.lt_of_succ_lt_succ h)

theorem lookupCell_eq_cell_iff {state : State} {a : Address} {c : Cell} :
    lookupCell state a = .ok (.cell c) ↔
      ∃ row, nth state a.y = some row ∧ nth row a.x = some (some c) := by
  unfold lookupCell
  cases hrow : nth state a.y with
  | none => simp
  | some row =>
    cases hx : nth row a.x with
    | none => simp [hx]
    | some slot => cases slot <;> simp [hx]

theorem lookupCell_error_eq {state : State} {a : Address} {e : JsOutcome}
    (h : lookupCell state a = .error e) : e = .throws ∧ nth state a.y = none := by
  unfold lookupCell at h
  cases hrow : nth state a.y with
  | none => rw [hrow] at h; exact ⟨(Except.error.inj h).symm, rfl⟩
  | some row => rw [hrow] at h; exact Except.noConfusion h

theorem lookupCell_ok_of_lt {state : State} {a : Address} (h : a.y < state.length) :
    ∃ s, lookupCell state a = .ok s := by
  obtain ⟨row, hrow⟩ := nth_of_lt h
  exact ⟨_, by unfold lookupCell; rw [hrow]⟩

theorem lookupCell_throws_of_le {state : State} {a : Address} (h : state.length ≤ a.y) :
    lookupCell state a = .error .throws := by
  unfold lookupCell
  rw [nth_eq_none_iff.mpr h]

theorem committedCell_eq_some_iff {state : State} {a : Address} {c : Cell} :
    committedCell state a = some c ↔ lookupCell state a = .ok (.cell c) := by
  unfold committedCell
  cases h : lookupCell state a with
  | error e => simp
  | ok slot => cases slot <;> simp

theorem eqAddress_iff {a b : Address} : eqAddress a b = true ↔ a = b := by
  cases a
  cases b
  simp [eqAddress, and_comm]

theorem someExcept_ok_true_exists {f : α → Except ε Bool} {l : List α}
    (h : someExcept f l = .ok true) : ∃ a ∈ l, f a = .ok true := by
  induction l with
  | nil => simp [someExcept] at h
  | cons a as ih =>
    unfold someExcept at h
    cases hf : f a with
    | error e => rw [hf] at h; exact Except.noConfusion h
    | ok b =>
      cases b with
      | true => exact ⟨a, List.mem_cons_self a as, hf⟩
      | false =>
        rw [hf] at h
        obtain ⟨x, hx, hfx⟩ := ih h
        exact ⟨x, List.mem_cons_of_mem a hx, hfx⟩

theorem someExcept_ok_false_all {f : α → Except ε Bool} {l : List α}
    (h : someExcept f l = .ok false) : ∀ a ∈ l, f a = .ok false := by
  induction l with
  | nil => simp
  | cons a as ih =>
    unfold someExcept at h
    cases hf : f a with
    | error e => rw [hf] at h; exact absurd h (by simp)
    | ok b =>
      cases b with
      | true => rw [hf] at h; exact absurd h (by simp)
      | false =>
        rw [hf] at h
        intro x hx
        rcases List.mem_cons.mp hx with rfl | hx
        · exact hf
        · exact ih h x hx

theorem someExcept_all_ok {f : α → Except ε Bool} {l : List α}
    (h : ∀ a ∈ l, ∃ b, f a = .ok b) : ∃ b, someExcept f l = .ok b := by
  induction l with
  | nil => exact ⟨false, rfl⟩
  | cons a as ih =>
    obtain ⟨b, hb⟩ := h a (List.mem_cons_self a as)
    cases b with
    | true => exact ⟨true, by unfold someExcept; rw [hb]⟩
    | false =>
      obtain ⟨b', hb'⟩ := ih (fun x hx => h x (List.mem_cons_of_mem a hx))
      exact ⟨b', by unfold someExcept; rw [hb]; exact hb'⟩

theorem someExcept_ne_error {f : α → Except ε Bool} {l : List α} (e : ε)
    (h : ∀ a ∈ l, f a ≠ .error e) : someExcept f l ≠ .error e := by
  induction l with
  | nil => simp [someExcept]
  | cons a as ih =>
    unfold someExcept
    cases hf : f a with
    | error e' =>
      intro hc
      exact h a (List.mem_cons_self a as) (by rw [hf, Except.error.inj hc])
    | ok b =>
      cases b with
      | true => simp
      | false => exact ih (fun x hx => h x (List.mem_cons_of_mem a hx))

theorem someExcept_stable {f g : α → Except ε Bool} {l : List α} {e : ε}
    (H : ∀ a ∈ l, f a ≠ .error e → g a = f a) (h : someExcept f l ≠ .error e) :
    someExcept g l = someExcept f l := by
  induction l with
  | nil => rfl
  | cons a as ih =>
    unfold someExcept at h ⊢
    cases hf : f a with
    | error e' =>
      have he' : e' ≠ e := fun hc => by rw [hf, hc] at h; exact h rfl
      rw [H a (List.mem_cons_self a as) (by rw [hf]; exact fun hc => he' (Except.error.inj hc)), hf]
    | ok b =>
      rw [H a (List.mem_cons_self a as) (by rw [hf]; exact fun hc => Except.noConfusion hc), hf]
      cases b with
      | true => rfl
      | false =>
        rw [hf] at h
        exact ih (fun x hx => H x (List.mem_cons_of_mem a hx)) h

theorem hasLoop_succ (state : State) (address : Address) (n : Nat) (d : Address) :
    hasLoop state address (n + 1) d =
      if eqAddress address d then .ok true
      else
        match lookupCell state d with
        | .error e => .error e
        | .ok .undef => .ok false
        | .ok .null => .ok false
        | .ok (.cell depCel) =>
          someExcept (fun a => hasLoop state address n a)
            (dependencies (parseCellContents depCel.raw)) := rfl

theorem hasLoop_mono (state : State) (address : Address) :
    ∀ n m d, n ≤ m → hasLoop state address n d ≠ .error .diverges →
      hasLoop state address m d = hasLoop state address n d := by
  intro n
  induction n with
  | zero => intro m d _ hne; exact absurd rfl hne
  | succ n ih =>
    intro m d hnm hne
    obtain ⟨m, rfl⟩ : ∃ m', m = m' + 1 := ⟨m - 1, by omega⟩
    rw [hasLoop_succ, hasLoop_succ]
    rw [hasLoop_succ] at hne
    cases he : eqAddress address d with
    | true => simp [he]
    | false =>
      simp only [he, Bool.false_eq_true, if_false] at hne ⊢
      cases hl : lookupCell state d with
      | error e => rfl
      | ok slot =>
        rw [hl] at hne
        cases slot with
        | undef => rfl
        | null => rfl
        | cell c =>
          exact someExcept_stable
            (fun a _ ha => ih m a (Nat.le_of_succ_le_succ hnm) ha) hne

theorem hasLoop_sound (state : State) (address : Address) :
    ∀ n d, hasLoop state address n d = .ok true →
      Relation.ReflTransGen (depEdge state) d address := by
  intro n
  induction n with
  | zero => intro d h; exact absurd h (by simp [hasLoop])
  | succ n ih =>
    intro d h
    rw [hasLoop_succ] at h
    cases he : eqAddress address d with
    | true => exact (eqAddress_iff.mp he) ▸ Relation.ReflTransGen.refl
    | false =>
      simp only [he, Bool.false_eq_true, if_false] at h
      cases hl : lookupCell state d with
      | error e => rw [hl] at h; exact Except.noConfusion h
      | ok slot =>
        rw [hl] at h
        cases slot with
        | undef => exact absurd h (by simp)
        | null => exact absurd h (by simp)
        | cell c =>
          obtain ⟨b, hb, hfb⟩ := someExcept_ok_true_exists h
          exact Relation.ReflTransGen.head
            ⟨c, committedCell_eq_some_iff.mpr hl, hb⟩ (ih b hfb)

theorem hasLoop_complete_false (state : State) (address : Address) :
    ∀ n d, hasLoop state address n d = .ok false →
      ¬ Relation.ReflTransGen (depEdge state) d address := by
  intro n
  induction n with
  | zero => intro d h; exact absurd h (by simp [hasLoop])
  | succ n ih =>
    intro d h hpath
    rw [hasLoop_succ] at h
    cases he : eqAddress address d with
    | true => simp [he] at h
    | false =>
      simp only [he, Bool.false_eq_true, if_false] at h
      rcases Relation.ReflTransGen.cases_head hpath with heq | ⟨b, hdb, hbpath⟩
      · rw [heq] at he
        rw [eqAddress_iff.mpr rfl] at he
        exact Bool.noConfusion he
      · obtain ⟨c, hc, hmem⟩ := hdb
        rw [committedCell_eq_some_iff.mp hc] at h
        exact ih b (someExcept_ok_false_all h b hmem) hbpath

theorem hasLoop_no_throw (state : State) (address : Address)
    (hnb : ∀ a b, depEdge state a b → b.y < state.length) :
    ∀ n d, d.y < state.length → hasLoop state address n d ≠ .error .throws := by
  intro n
  induction n with
  | zero => intro d _ h; simp [hasLoop] at h
  | succ n ih =>
    intro d hd h
    rw [hasLoop_succ] at h
    cases he : eqAddress address d with
    | true => simp [he] at h
    | false =>
      simp only [he, Bool.false_eq_true, if_false] at h
      obtain ⟨s, hs⟩ := lookupCell_ok_of_lt hd
      rw [hs] at h
      cases s with
      | undef => exact absurd h (by simp)
      | null => exact absurd h (by simp)
      | cell c =>
        exact someExcept_ne_error .throws
          (fun b hb => ih b (hnb d b ⟨c, committedCell_eq_some_iff.mpr hs, hb⟩)) h

theorem hasLoop_bound_list (state : State) (address : Address) (l : List Address)
    (h : ∀ d ∈ l, ∃ n, ∀ m, n ≤ m → hasLoop state address m d ≠ .error .diverges) :
    ∃ N, ∀ d ∈ l, ∀ m, N ≤ m → hasLoop state address m d ≠ .error .diverges := by
  induction l with
  | nil => exact ⟨0, by simp⟩
  | cons a as ih =>
    obtain ⟨n₁, hn₁⟩ := h a (List.mem_cons_self a as)
    obtain ⟨N, hN⟩ := ih (fun d hd => h d (List.mem_cons_of_mem a hd))
    refine ⟨max n₁ N, fun d hd m hm => ?_⟩
    rcases List.mem_cons.mp hd with rfl | hd
    · exact hn₁ m (le_trans (le_max_left n₁ N) hm)
    · exact hN d hd m (le_trans (le_max_right n₁ N) hm)

theorem hasLoop_bound (state : State) (address : Address) :
    ∀ d, Acc (fun b a => depEdge state a b) d →
      ∃ n, ∀ m, n ≤ m → hasLoop state address m d ≠ .error .diverges := by
  intro d hacc
  induction hacc with
  | intro d hd ih =>
    cases he : eqAddress address d with
    | true =>
      refine ⟨1, fun m hm h => ?_⟩
      obtain ⟨m, rfl⟩ : ∃ m', m = m' + 1 := ⟨m - 1, by omega⟩
      rw [hasLoop_succ] at h
      simp [he] at h
    | false =>
      cases hl : lookupCell state d with
      | error e =>
        refine ⟨1, fun m hm h => ?_⟩
        obtain ⟨m, rfl⟩ : ∃ m', m = m' + 1 := ⟨m - 1, by omega⟩
        rw [hasLoop_succ] at h
        simp only [he, Bool.false_eq_true, if_false] at h
        rw [hl] at h
        obtain ⟨rfl, -⟩ := lookupCell_error_eq hl
        exact JsOutcome.noConfusion (Except.error.inj h)
      | ok slot =>
        cases slot with
        | undef =>
          refine ⟨1, fun m hm h => ?_⟩
          obtain ⟨m, rfl⟩ : ∃ m', m = m' + 1 := ⟨m - 1, by omega⟩
          rw [hasLoop_succ] at h
          simp only [he, Bool.false_eq_true, if_false] at h
          rw [hl] at h
          exact Except.noConfusion h
        | null =>
          refine ⟨1, fun m hm h => ?_⟩
          obtain ⟨m, rfl⟩ : ∃ m', m = m' + 1 := ⟨m - 1, by omega⟩
          rw [hasLoop_succ] at h
          simp only [he, Bool.false_eq_true, if_false] at h
          rw [hl] at h
          exact Except.noConfusion h
        | cell c =>
          obtain ⟨N, hN⟩ := hasLoop_bound_list state address
            (dependencies (parseCellContents c.raw))
            (fun b hb => ih b ⟨c, committedCell_eq_some_iff.mpr hl, hb⟩)
          refine ⟨N + 1, fun m hm h => ?_⟩
          obtain ⟨m, rfl⟩ : ∃ m', m = m' + 1 := ⟨m - 1, by omega⟩
          rw [hasLoop_succ] at h
          simp only [he, Bool.false_eq_true, if_false] at h
          rw [hl] at h
          exact someExcept_ne_error .diverges
            (fun b hb => hN b hb m (by omega)) h

theorem mem_committedAddrs {state : State} {a : Address} {c : Cell}
    (h : committedCell state a = some c) : a ∈ committedAddrs state := by
  obtain ⟨row, hrow, hx⟩ := lookupCell_eq_cell_iff.mp (committedCell_eq_some_iff.mp h)
  have hyl : a.y < state.length := nth_lt_length hrow
  have hra : rowAt state a.y = row := by unfold rowAt; rw [hrow]; rfl
  have hxl : a.x < row.length := nth_lt_length hx
  unfold committedAddrs
  rw [List.mem_flatten]
  refine ⟨_, List.mem_map.mpr ⟨a.y, List.mem_range.mpr hyl, rfl⟩, ?_⟩
  rw [List.mem_filterMap]
  refine ⟨a.x, List.mem_range.mpr (by rw [hra]; exact hxl), ?_⟩
  rw [hra, hx]

theorem committed_finite (state : State) :
    Set.Finite (setOf fun a => ∃ c, committedCell state a = some c) :=
  Set.Finite.subset (List.finite_toSet (committedAddrs state))
    (fun a ha => by obtain ⟨c, hc⟩ := ha; exact mem_committedAddrs hc)

theorem acc_of_not_committed {state : State} {a : Address}
    (h : ¬ ∃ c, committedCell state a = some c) :
    Acc (fun b a => depEdge state a b) a :=
  Acc.intro a (fun _ hb => absurd ⟨_, hb.choose_spec.1⟩ h)

theorem acc_depEdge_of_acyclic (state : State)
    (hacyc : ∀ a, ¬ Relation.TransGen (depEdge state) a a) :
    ∀ a, Acc (fun b a => depEdge state a b) a := by
  have hfin : Finite (setOf fun a => ∃ c, committedCell state a = some c) :=
    (committed_finite state).to_subtype
  set R : (setOf fun a => ∃ c, committedCell state a = some c) →
      (setOf fun a => ∃ c, committedCell state a = some c) → Prop :=
    fun t u => Relation.TransGen (depEdge state) u.val t.val with hR
  have htrans : IsTrans _ R := ⟨fun _ _ _ hab hbc => Relation.TransGen.trans hbc hab⟩
  have hirr : IsIrrefl _ R := ⟨fun t ht => hacyc t.val ht⟩
  have hwf : WellFounded R := Finite.wellFounded_of_trans_of_irrefl R
  have key : ∀ t : setOf fun a => ∃ c, committedCell state a = some c,
      Acc (fun b a => depEdge state a b) t.val := by
    intro t
    induction t using hwf.induction with
    | _ t ih =>
      refine Acc.intro t.val (fun b hb => ?_)
      by_cases hcb : ∃ c, committedCell state b = some c
      · exact ih ⟨b, hcb⟩ (Relation.TransGen.single hb)
      · exact acc_of_not_committed hcb
  intro a
  by_cases hca : ∃ c, committedCell state a = some c
  · exact key ⟨a, hca⟩
  · exact acc_of_not_committed hca

theorem value_succ (state : State) (fuel : Nat) (cell : Cell) :
    value state (fuel + 1) cell = valueGo state (fun c => value state fuel c) cell := rfl

theorem parseCellContents_const {t : String}
    (h : (jsTrim t.toList).head? ≠ some '=') : parseCellContents t = .const := by
  simp only [parseCellContents]
  cases hv : jsTrim t.toList with
  | nil => rfl
  | cons c cs =>
    rw [hv] at h
    have hc : c ≠ '=' := fun hce => h (by rw [hce]; rfl)
    simp [hc]

theorem parseNumericArgs_ne_nil {l : List String} {args : List NumericArgs}
    (h : parseNumericArgs l = some args) : args ≠ [] := by
  intro hnil
  subst hnil
  unfold parseNumericArgs at h
  cases hm : l.mapM parseOneArg with
  | none => rw [hm] at h; exact Option.noConfusion h
  | some as =>
    rw [hm] at h
    have h' : (if as.length = 0 then (none : Option (List NumericArgs)) else some as) =
        some [] := h
    by_cases hl : as.length = 0
    · rw [if_pos hl] at h'; exact Option.noConfusion h'
    · rw [if_neg hl] at h'
      cases Option.some.inj h'
      exact hl rfl

theorem parseCellContents_sum_inv {s : String} {args : List NumericArgs}
    (h : parseCellContents s = .sum args ∨ parseCellContents s = .product args) :
    args ≠ [] := by
  rcases h with h | h <;>
  · simp only [parseCellContents] at h
    repeat' split at h
    all_goals
      first
        | (injection h with h2; subst h2; exact parseNumericArgs_ne_nil (by assumption))
        | simp at h

/-- C3 (amended): splitting the empty interior of `=SUM()` yields the single
empty argument string, which `Number`-parses to 0, so `=SUM()` parses as a sum
with one `const 0` argument rather than as `invalid`; nevertheless every
parsed sum/product term has at least one argument. -/
theorem sumProduct_args_nonempty :
    parseCellContents "=SUM()" = .sum [.const 0] ∧
      ∀ (s : String) (args : List NumericArgs),
        (parseCellContents s = .sum args ∨ parseCellContents s = .product args) →
        args ≠ [] :=
  ⟨by decide, fun _ _ h => parseCellContents_sum_inv h⟩

/-- C3 witness: the hypotheses of the universal part are satisfiable, at the
parse of `=SUM(1)`. -/
theorem sumProduct_args_nonempty_witness :
    ([NumericArgs.const 1] : List NumericArgs) ≠ [] :=
  sumProduct_args_nonempty.2 "=SUM(1)" [NumericArgs.const 1] (Or.inl (by decide))

/-- C3 counterexample: the formula `=SUM()` (zero written arguments) does not
parse as `invalid` — it parses as a one-argument sum. -/
theorem sum_emptyParens_counterexample :
    parseCellContents "=SUM()" ≠ .invalid ∧
      parseCellContents "=SUM()" = .sum [.const 0] := by decide

/-- C4 (amended): the reference grammar accepts exactly ONE alphabetic
character (any ASCII letter, case-insensitively — the fixed alphabet contains
all 26 letters) followed by one or more digits with no leading-zero
restriction; multi-letter column names fail to match. -/
theorem parseRef_characterization (s : String) (a : Address) :
    parseRef s = some a ↔
      ∃ c ds, s.toList = c :: ds ∧ isAsciiLetter c = true ∧ ds ≠ [] ∧
        ds.all Char.isDigit = true ∧ a = ⟨alphabetToIdx c.toUpper, digitsToNat ds⟩ := by
  unfold parseRef
  cases hl : s.toList with
  | nil => simp
  | cons c ds =>
    simp only [List.cons.injEq]
    constructor
    · intro h
      by_cases hcond : (isAsciiLetter c && !ds.isEmpty && ds.all Char.isDigit) = true
      · rw [if_pos hcond] at h
        simp only [Bool.and_eq_true, Bool.not_eq_true'] at hcond
        obtain ⟨⟨h1, h2⟩, h3⟩ := hcond
        refine ⟨c, ds, ⟨rfl, rfl⟩, h1, ?_, h3, (Option.some.inj h).symm⟩
        intro hnil
        rw [hnil] at h2
        exact Bool.noConfusion h2
      · rw [if_neg hcond] at h
        exact Option.noConfusion h
    · rintro ⟨c', ds', ⟨heq1, heq2⟩, h1, h2, h3, ha⟩
      subst heq1
      subst heq2
      have hcond : (isAsciiLetter c && !ds.isEmpty && ds.all Char.isDigit) = true := by
        simp only [Bool.and_eq_true, Bool.not_eq_true']
        refine ⟨⟨h1, ?_⟩, h3⟩
        cases ds with
        | nil => exact absurd rfl h2
        | cons d ds2 => rfl
      rw [if_pos hcond, ha]

/-- C4 counterexample: `AA1` — one-or-more letters followed by digits, as the
claim's grammar allows — does not match and does not parse as a reference. -/
theorem parseRef_multiLetter_counterexample :
    parseRef "AA1" = none ∧ parseCellContents "=AA1" = .invalid := by decide

/-- C8 (amended): a cell whose raw text TRIMS to something not starting with
the formula marker `=` parses as a literal and displays as its raw text,
unchanged. -/
theorem const_roundtrip (state : State) (t : String) (fuel : Nat)
    (h : (jsTrim t.toList).head? ≠ some '=') :
    value state (fuel + 1) ⟨t⟩ = .ok (.str t) := by
  rw [value_succ]
  unfold valueGo
  rw [show (Cell.mk t).raw = t from rfl, parseCellContents_const h]

/-- C8 witness: a plain literal round-trips. -/
theorem const_roundtrip_witness :
    value gridAllEmpty 1 ⟨"hello"⟩ = .ok (.str "hello") :=
  const_roundtrip gridAllEmpty "hello" 0 (by decide)

/-- C8 counterexample: the raw text `" =A1"` does not start with `=`, yet its
value is the referenced cell's value (empty text here), not the raw text —
parsing trims first. -/
theorem const_roundtrip_counterexample :
    value gridAllEmpty 2 ⟨" =A1"⟩ = .ok (.str "") ∧
      value gridAllEmpty 2 ⟨" =A1"⟩ ≠ .ok (.str " =A1") := by decide

/-- C5 (amended): parsing is total by construction (every text yields exactly
one of the five term shapes), but evaluation is NOT exception-free on
out-of-bounds references: a formula referencing a row index at or beyond the
grid's row count makes the `value` getter throw a TypeError (indexing into an
`undefined` row), rather than returning a sentinel value. -/
theorem value_refOutOfBounds_throws (state : State) (cell : Cell) (a : Address) (fuel : Nat)
    (hp : parseCellContents cell.raw = .ref a) (hy : state.length ≤ a.y) :
    value state (fuel + 1) cell = .error .throws := by
  rw [value_succ]
  simp only [valueGo, hp, lookupCell_throws_of_le hy]

/-- C5 witness: the amended theorem applies to `=A9` in a two-row grid. -/
theorem value_refOutOfBounds_throws_witness :
    value gridAllEmpty 4 ⟨"=A9"⟩ = .error .throws :=
  value_refOutOfBounds_throws gridAllEmpty ⟨"=A9"⟩ ⟨0, 9⟩ 3 (by decide) (by decide)

/-- C5 counterexample: evaluating a committed cell holding `=A9` in a two-row
grid throws instead of producing a display value. -/
theorem value_outOfBounds_throws_counterexample :
    value gridAllEmpty 3 ⟨"=A9"⟩ = .error .throws := by decide

/-- C1 (amended): a `ref` argument whose referenced cell's value is text on
which numeric parsing FAILS contributes the fold's identity element; but an
empty cell's value is the empty string, which `Number` converts to 0 (not
NaN), so `=PRODUCT(A1,2)` with an empty-raw cell at A1 evaluates to 0
(1 × 0 × 2); it evaluates to 2 (1 × 1 × 2) only when the A1 slot is
genuinely absent (`null`). -/
theorem product_nonNumericRef_identity :
    (∀ (evalC : Cell → Except JsOutcome Value) (c : Cell) (d : JsNumber) (s : String),
      evalC c = .ok (.str s) → jsNumber s = none →
      readNumber evalC (.cell c) d = .ok d) ∧
    (∀ (state : State) (fuel : Nat) (c : Cell),
      lookupCell state ⟨0, 1⟩ = .ok (.cell c) → c.raw = "" →
      value state (fuel + 1 + 1) ⟨"=PRODUCT(A1,2)"⟩ = .ok (.num 0)) ∧
    (∀ (state : State) (fuel : Nat),
      lookupCell state ⟨0, 1⟩ = .ok .null →
      value state (fuel + 1) ⟨"=PRODUCT(A1,2)"⟩ = .ok (.num 2)) := by
  have hp : parseCellContents "=PRODUCT(A1,2)" =
      .product [.ref ⟨0, 1⟩, .const ⟨2, 1⟩] := by decide
  refine ⟨?_, ?_, ?_⟩
  · intro evalC c d s hev hn
    simp only [readNumber, hev, asNumber, hn]
  · intro state fuel c hl hraw
    rw [value_succ]
    simp only [valueGo, hp, evalNumericFunction, evalNumericFunctionAux, hl, readNumber,
      value_succ, hraw]
    simp only [valueGo, show parseCellContents "" = .const from rfl, hraw]
    rfl
  · intro state fuel hl
    rw [value_succ]
    simp only [valueGo, hp, evalNumericFunction, evalNumericFunctionAux, hl, readNumber]
    rfl

/-- C1 witness: all three parts apply at concrete grids — a non-numeric text
reference contributes the default, an empty-raw A1 makes the product 0, and a
`null` A1 slot makes it 2. -/
theorem product_nonNumericRef_identity_witness :
    readNumber (fun c => value gridAllEmpty 1 c) (.cell ⟨"xyz"⟩) 5 = .ok 5 ∧
      value gridAllEmpty (0 + 1 + 1) ⟨"=PRODUCT(A1,2)"⟩ = .ok (.num 0) ∧
      value gridNullSlot (0 + 1) ⟨"=PRODUCT(A1,2)"⟩ = .ok (.num 2) :=
  ⟨product_nonNumericRef_identity.1 _ ⟨"xyz"⟩ 5 "xyz" (by decide) (by decide),
   product_nonNumericRef_identity.2.1 gridAllEmpty 0 ⟨""⟩ (by decide) rfl,
   product_nonNumericRef_identity.2.2 gridNullSlot 0 (by decide)⟩

/-- C1 counterexample: in a freshly-constructed grid every slot holds a cell
with empty raw text, and `=PRODUCT(A1,2)` with such an empty A1 evaluates to
the number 0, not to 2 as the claim states. -/
theorem product_emptyCell_counterexample :
    value gridAllEmpty 2 ⟨"=PRODUCT(A1,2)"⟩ = .ok (.num 0) ∧
      value gridAllEmpty 2 ⟨"=PRODUCT(A1,2)"⟩ ≠ .ok (.num 2) := by decide

/-- C2 (amended): a `ref` formula falls back to empty text whenever the
referenced slot is absent OR the referenced value is JavaScript-falsy — the
empty string or the NUMBER 0 (`value || ""`); the text `"0"` is truthy and is
displayed as computed, but a computed numeric 0 is replaced by empty text. -/
theorem ref_falsy_fallback :
    (∀ (state : State) (raw : String) (a : Address) (c : Cell) (v : Value) (fuel : Nat),
      parseCellContents raw = .ref a → lookupCell state a = .ok (.cell c) →
      value state fuel c = .ok v →
      value state (fuel + 1) ⟨raw⟩ = .ok (if jsFalsy v then .str "" else v)) ∧
    (∀ (state : State) (raw : String) (a : Address) (fuel : Nat),
      parseCellContents raw = .ref a → lookupCell state a = .ok .null →
      value state (fuel + 1) ⟨raw⟩ = .ok (.str "")) ∧
    jsFalsy (.num 0) = true ∧ jsFalsy (.str "0") = false ∧ jsFalsy (.str "") = true := by
  refine ⟨?_, ?_, by decide, by decide, by decide⟩
  · intro state raw a c v fuel hp hl hev
    rw [value_succ]
    simp only [valueGo, hp, hl, hev]
  · intro state raw a fuel hp hl
    rw [value_succ]
    simp only [valueGo, hp, hl]

/-- C2 witness: with B1 committed as `=SUM(0)` (numeric 0), `=B1` displays
empty text; with A0 committed as the text `0`, `=A0` displays `0`. -/
theorem ref_falsy_fallback_witness :
    value gridZero 2 ⟨"=B1"⟩ = .ok (if jsFalsy (.num 0) then .str "" else .num 0) ∧
      value gridTextZero 2 ⟨"=A0"⟩ = .ok (if jsFalsy (.str "0") then .str "" else .str "0") :=
  ⟨ref_falsy_fallback.1 gridZero "=B1" ⟨1, 1⟩ ⟨"=SUM(0)"⟩ (.num 0) 1
      (by decide) (by decide) (by decide),
   ref_falsy_fallback.1 gridTextZero "=A0" ⟨0, 0⟩ ⟨"0"⟩ (.str "0") 1
      (by decide) (by decide) (by decide)⟩

/-- C2 counterexample: B1's computed value is the number 0, and `=B1` is
displayed as empty text — numeric 0 is NOT displayed as computed. -/
theorem ref_numericZero_counterexample :
    value gridZero 2 ⟨"=B1"⟩ = .ok (.str "") ∧
      value gridZero 2 ⟨"=B1"⟩ ≠ .ok (.num 0) := by decide

/-- C6: when the cycle check rejects a proposed edit, the returned grid is
exactly the input grid — every cell (in particular its raw text) is unchanged. -/
theorem proposeEdit_rejected_unchanged (state : State) (address : Address) (edit : String)
    (fuel : Nat) (s' : State)
    (h : proposeEdit state address edit fuel = .ok (.cycleRejected s')) :
    s' = state ∧ ∀ q, lookupCell s' q = lookupCell state q := by
  unfold proposeEdit at h
  cases hc : hasDependencyCycle state address edit fuel with
  | error e => rw [hc] at h; exact Except.noConfusion h
  | ok b =>
    rw [hc] at h
    cases b with
    | true =>
      obtain rfl : state = s' := ProposeResult.cycleRejected.inj (Except.ok.inj h)
      exact ⟨rfl, fun q => rfl⟩
    | false =>
      cases hn : newValue state address edit with
      | error e => rw [hn] at h; exact Except.noConfusion h
      | ok s2 => rw [hn] at h; exact ProposeResult.noConfusion (Except.ok.inj h)

/-- C6 witness: the spec's scenario — A1 already committed as `=B1`, the edit
`=A1` proposed at B1 — is rejected by the cycle check and leaves the grid,
hence B1's raw text, exactly as it was. -/
theorem proposeEdit_rejected_unchanged_witness :
    proposeEdit gridRefChain ⟨1, 1⟩ "=A1" 2 = .ok (.cycleRejected gridRefChain) ∧
      (gridRefChain = gridRefChain ∧
        ∀ q, lookupCell gridRefChain q = lookupCell gridRefChain q) :=
  ⟨by decide,
   proposeEdit_rejected_unchanged gridRefChain ⟨1, 1⟩ "=A1" 2 gridRefChain (by decide)⟩

theorem depEdge_gridRefChain {a b : Address} :
    depEdge gridRefChain a b ↔ a = ⟨0, 1⟩ ∧ b = ⟨1, 1⟩ := by
  constructor
  · rintro ⟨c, hc, hm⟩
    obtain ⟨x, y⟩ := a
    rcases y with _ | _ | y
    · -- row 0: both cells have empty raw text, no dependencies
      rcases x with _ | _ | x
      · have hce : c = emptyCell := by
          simpa [committedCell, lookupCell, gridRefChain, nth] using hc.symm
        subst hce
        simp [show dependencies (parseCellContents emptyCell.raw) = [] from rfl] at hm
      · have hce : c = emptyCell := by
          simpa [committedCell, lookupCell, gridRefChain, nth] using hc.symm
        subst hce
        simp [show dependencies (parseCellContents emptyCell.raw) = [] from rfl] at hm
      · simp [committedCell, lookupCell, gridRefChain, nth] at hc
    · -- row 1: A1 holds `=B1`, B1 is empty
      rcases x with _ | _ | x
      · have hce : c = (⟨"=B1"⟩ : Cell) := by
          simpa [committedCell, lookupCell, gridRefChain, nth] using hc.symm
        subst hce
        rw [show dependencies (parseCellContents (Cell.mk "=B1").raw) =
            [(⟨1, 1⟩ : Address)] from rfl] at hm
        rcases List.mem_singleton.mp hm with rfl
        exact ⟨rfl, rfl⟩
      · have hce : c = emptyCell := by
          simpa [committedCell, lookupCell, gridRefChain, nth] using hc.symm
        subst hce
        simp [show dependencies (parseCellContents emptyCell.raw) = [] from rfl] at hm
      · simp [committedCell, lookupCell, gridRefChain, nth] at hc
    · simp [committedCell, lookupCell, gridRefChain, nth] at hc
  · rintro ⟨rfl, rfl⟩
    exact ⟨⟨"=B1"⟩, by decide, by decide⟩

theorem transGen_gridRefChain {a b : Address}
    (h : Relation.TransGen (depEdge gridRefChain) a b) : a = ⟨0, 1⟩ ∧ b = ⟨1, 1⟩ := by
  induction h with
  | single h1 => exact depEdge_gridRefChain.mp h1
  | tail h1 h2 ih =>
    obtain ⟨ha, rfl⟩ := ih
    obtain ⟨hmid, -⟩ := depEdge_gridRefChain.mp h2
    exact absurd hmid (by decide)

theorem gridRefChain_acyclic : ∀ a, ¬ Relation.TransGen (depEdge gridRefChain) a a := by
  intro a h
  obtain ⟨h1, h2⟩ := transGen_gridRefChain h
  rw [h1] at h2
  exact absurd h2 (by decide)

/-- C7 (amended): provided every reference encountered stays within the grid's
row bounds (so no lookup throws) and the committed dependency graph is acyclic
(the grid invariant), the cycle detector answers `true`, at sufficient
recursion depth, exactly when committing the candidate at the edited address
would make that cell depend on itself: a direct self-reference, or any chain
through the already-committed dependencies of cells reachable from the
candidate's direct references. -/
theorem hasDependencyCycle_correct (state : State) (address : Address) (candidate : String)
    (hv : ∀ d ∈ dependencies (parseCellContents candidate), d.y < state.length)
    (hnb : ∀ a b, depEdge state a b → b.y < state.length)
    (hacyc : ∀ a, ¬ Relation.TransGen (depEdge state) a a) :
    (∃ fuel, hasDependencyCycle state address candidate fuel = .ok true) ↔
      dependsOnSelf state address candidate := by
  constructor
  · rintro ⟨fuel, h⟩
    obtain ⟨d, hd, ht⟩ := someExcept_ok_true_exists h
    exact ⟨d, hd, hasLoop_sound state address fuel d ht⟩
  · rintro ⟨d, hd, hpath⟩
    obtain ⟨N, hN⟩ := hasLoop_bound_list state address
      (dependencies (parseCellContents candidate))
      (fun x _ => hasLoop_bound state address x (acc_depEdge_of_acyclic state hacyc x))
    have hall : ∀ x ∈ dependencies (parseCellContents candidate),
        ∃ b, hasLoop state address N x = .ok b := by
      intro x hx
      cases hres : hasLoop state address N x with
      | ok b => exact ⟨b, rfl⟩
      | error e =>
        cases e with
        | diverges => exact absurd hres (hN x hx N le_rfl)
        | throws => exact absurd hres (hasLoop_no_throw state address hnb N x (hv x hx))
    obtain ⟨b, hsome⟩ := someExcept_all_ok hall
    cases b with
    | true => exact ⟨N, hsome⟩
    | false =>
      exact absurd hpath
        (hasLoop_complete_false state address N d (someExcept_ok_false_all hsome d hd))

/-- C7 witness: at the concrete grid with A1 committed as `=B1`, proposing
`=A1` at B1 is reported as a cycle (at fuel 2), and by the theorem B1 would
indeed depend on itself. -/
theorem hasDependencyCycle_correct_witness :
    dependsOnSelf gridRefChain ⟨1, 1⟩ "=A1" :=
  (hasDependencyCycle_correct gridRefChain ⟨1, 1⟩ "=A1"
      (by decide)
      (fun a b h => by obtain ⟨-, rfl⟩ := depEdge_gridRefChain.mp h; decide)
      gridRefChain_acyclic).mp
    ⟨2, by decide⟩

theorem hasDependencyCycle_throwExample (fuel : Nat) :
    hasDependencyCycle gridRefChain ⟨0, 1⟩ "=SUM(A9,A1)" fuel ≠ .ok true := by
  cases fuel with
  | zero => decide
  | succ n =>
    have h9 : hasLoop gridRefChain ⟨0, 1⟩ (n + 1) ⟨0, 9⟩ = .error .throws := by
      rw [hasLoop_succ]
      rw [show eqAddress ⟨0, 1⟩ ⟨0, 9⟩ = false from by decide]
      simp only [Bool.false_eq_true, if_false]
      rw [show lookupCell gridRefChain ⟨0, 9⟩ = .error .throws from by decide]
    unfold hasDependencyCycle
    rw [show dependencies (parseCellContents "=SUM(A9,A1)") =
        [⟨0, 9⟩, (⟨0, 1⟩ : Address)] from by decide]
    unfold someExcept
    rw [h9]
    simp

/-- C7 counterexample: with an out-of-bounds reference listed before the
self-reference, `=SUM(A9,A1)` proposed at A1 makes the detector throw at every
recursion depth — it never returns `true` — although the candidate plainly
makes A1 depend on itself. -/
theorem hasDependencyCycle_throw_counterexample :
    ¬ ((∃ fuel, hasDependencyCycle gridRefChain ⟨0, 1⟩ "=SUM(A9,A1)" fuel = .ok true) ↔
        dependsOnSelf gridRefChain ⟨0, 1⟩ "=SUM(A9,A1)") := by
  intro hiff
  obtain ⟨fuel, hfuel⟩ := hiff.mpr ⟨⟨0, 1⟩, by decide, Relation.ReflTransGen.refl⟩
  exact hasDependencyCycle_throwExample fuel hfuel

/-- C9: when the already-committed dependency graph is acyclic, the cycle
detector's traversal is bounded: there is a recursion depth past which its
answer is stable and is never the nontermination marker, for every candidate
raw text and edited address. -/
theorem hasDependencyCycle_terminates (state : State) (address : Address) (candidate : String)
    (hacyc : ∀ a, ¬ Relation.TransGen (depEdge state) a a) :
    ∃ n, ∀ fuel, n ≤ fuel →
      hasDependencyCycle state address candidate fuel =
        hasDependencyCycle state address candidate n ∧
      hasDependencyCycle state address candidate n ≠ .error .diverges := by
  obtain ⟨N, hN⟩ := hasLoop_bound_list state address
    (dependencies (parseCellContents candidate))
    (fun d _ => hasLoop_bound state address d (acc_depEdge_of_acyclic state hacyc d))
  have hne : someExcept (fun a => hasLoop state address N a)
      (dependencies (parseCellContents candidate)) ≠ .error .diverges :=
    someExcept_ne_error JsOutcome.diverges (fun d hd => hN d hd N le_rfl)
  refine ⟨N, fun fuel hf => ⟨?_, hne⟩⟩
  show someExcept (fun a => hasLoop state address fuel a)
      (dependencies (parseCellContents candidate)) =
    someExcept (fun a => hasLoop state address N a)
      (dependencies (parseCellContents candidate))
  exact someExcept_stable
    (fun d hd hxd => hasLoop_mono state address N fuel d hf hxd) hne

/-- C9 witness: the termination bound exists at a concrete acyclic grid. -/
theorem hasDependencyCycle_terminates_witness :
    ∃ n, ∀ fuel, n ≤ fuel →
      hasDependencyCycle gridRefChain ⟨1, 1⟩ "=A1" fuel =
        hasDependencyCycle gridRefChain ⟨1, 1⟩ "=A1" n ∧
      hasDependencyCycle gridRefChain ⟨1, 1⟩ "=A1" n ≠ .error .diverges :=
  hasDependencyCycle_terminates gridRefChain ⟨1, 1⟩ "=A1" gridRefChain_acyclic

theorem lookupCell_eq_null_iff {state : State} {a : Address} :
    lookupCell state a = .ok .null ↔
      ∃ row, nth state a.y = some row ∧ nth row a.x = some none := by
  unfold lookupCell
  cases hrow : nth state a.y with
  | none => simp
  | some row =>
    cases hx : nth row a.x with
    | none => simp [hx]
    | some slot => cases slot <;> simp [hx]

theorem rowAt_eq {state : State} {y : Nat} {row : List (Option Cell)}
    (h : nth state y = some row) : rowAt state y = row := by
  unfold rowAt; rw [h]; rfl

theorem makeMatrix_lookup (cols rows : Nat) (a : Address)
    (h : inBounds (makeMatrix cols rows) a) :
    lookupCell (makeMatrix cols rows) a = .ok (.cell ⟨""⟩) := by
  obtain ⟨hy, hx⟩ := h
  have hyl : a.y < rows := by simpa [makeMatrix] using hy
  have hrow : nth (makeMatrix cols rows) a.y =
      some (List.replicate cols (some (⟨""⟩ : Cell))) := nth_replicate hyl
  have hxl : a.x < cols := by
    rw [rowAt_eq hrow] at hx
    simpa using hx
  simp only [lookupCell, hrow, nth_replicate hxl]

theorem newValue_ok_shape {state : State} {a : Address} {v : String} {s' : State}
    (h : newValue state a v = .ok s') :
    ∃ row, nth state a.y = some row ∧ a.x < row.length ∧
      s' = setNth state a.y (setNth row a.x (some ⟨v⟩)) := by
  unfold newValue at h
  cases hl : lookupCell state a with
  | error e => rw [hl] at h; exact Except.noConfusion h
  | ok slot =>
    rw [hl] at h
    cases slot with
    | undef => exact Except.noConfusion h
    | null =>
      obtain ⟨row, hrow, hx⟩ := lookupCell_eq_null_iff.mp hl
      unfold insertCell at h
      rw [hrow] at h
      exact ⟨row, hrow, nth_lt_length hx, (Except.ok.inj h).symm⟩
    | cell c =>
      obtain ⟨row, hrow, hx⟩ := lookupCell_eq_cell_iff.mp hl
      unfold insertCell at h
      rw [hrow] at h
      exact ⟨row, hrow, nth_lt_length hx, (Except.ok.inj h).symm⟩

theorem newValue_preserves_occupied {state : State} {a : Address} {v : String} {s' : State}
    (hocc : occupied state) (h : newValue state a v = .ok s') : occupied s' := by
  obtain ⟨row, hrow, hxl, rfl⟩ := newValue_ok_shape h
  have hyl : a.y < state.length := nth_lt_length hrow
  intro q hq
  obtain ⟨hqy, hqx⟩ := hq
  rw [length_setNth] at hqy
  by_cases hy : q.y = a.y
  · have hrow' : nth (setNth state a.y (setNth row a.x (some ⟨v⟩))) q.y =
        some (setNth row a.x (some ⟨v⟩)) := by
      rw [hy]; exact nth_setNth_self hyl _
    have hqx' : q.x < row.length := by
      rw [rowAt_eq hrow', length_setNth] at hqx
      exact hqx
    by_cases hx : q.x = a.x
    · refine ⟨⟨v⟩, lookupCell_eq_cell_iff.mpr ⟨_, hrow', ?_⟩⟩
      rw [hx]
      exact nth_setNth_self hxl _
    · obtain ⟨c, hc⟩ := hocc q ⟨by rw [hy]; exact hyl, by rw [hy, rowAt_eq hrow]; exact hqx'⟩
      obtain ⟨row₀, hrow₀, hx₀⟩ := lookupCell_eq_cell_iff.mp hc
      have hre : row₀ = row := by
        rw [hy] at hrow₀
        exact Option.some.inj (hrow₀.symm.trans hrow)
      subst hre
      refine ⟨c, lookupCell_eq_cell_iff.mpr ⟨_, hrow', ?_⟩⟩
      rw [nth_setNth_ne (fun he => hx he.symm)]
      exact hx₀
  · have hrow' : nth (setNth state a.y (setNth row a.x (some ⟨v⟩))) q.y = nth state q.y :=
      nth_setNth_ne (fun he => hy he.symm) _
    have hqb : inBounds state q := by
      refine ⟨hqy, ?_⟩
      have : rowAt (setNth state a.y (setNth row a.x (some ⟨v⟩))) q.y = rowAt state q.y := by
        unfold rowAt; rw [hrow']
      rw [this] at hqx
      exact hqx
    obtain ⟨c, hc⟩ := hocc q hqb
    obtain ⟨row₀, hrow₀, hx₀⟩ := lookupCell_eq_cell_iff.mp hc
    exact ⟨c, lookupCell_eq_cell_iff.mpr ⟨row₀, hrow'.trans hrow₀, hx₀⟩⟩

theorem proposeEdit_preserves_occupied {state : State} {a : Address} {v : String}
    {fuel : Nat} {r : ProposeResult}
    (hocc : occupied state) (h : proposeEdit state a v fuel = .ok r) :
    occupied r.state := by
  unfold proposeEdit at h
  cases hc : hasDependencyCycle state a v fuel with
  | error e => rw [hc] at h; exact Except.noConfusion h
  | ok b =>
    rw [hc] at h
    cases b with
    | true =>
      cases (Except.ok.inj h).symm
      exact hocc
    | false =>
      cases hn : newValue state a v with
      | error e => rw [hn] at h; exact Except.noConfusion h
      | ok s2 =>
        rw [hn] at h
        cases (Except.ok.inj h).symm
        exact newValue_preserves_occupied hocc hn

/-- C10: a freshly-constructed grid has every in-bounds slot occupied by a
cell with empty raw text; the mutation operations (`newValue`, and the
`proposeEdit` gate built on it) preserve full occupancy; and under full
occupancy the lookup of any in-bounds address never yields the `null` (or
`undefined`) slot, so the empty-slot fallback branches of `ref` evaluation and
numeric-argument resolution are unreachable for in-bounds addresses. -/
theorem grid_occupancy_invariant :
    (∀ cols rows a, inBounds (makeMatrix cols rows) a →
      lookupCell (makeMatrix cols rows) a = .ok (.cell ⟨""⟩)) ∧
    (∀ (state : State) a v (s' : State), occupied state → newValue state a v = .ok s' →
      occupied s') ∧
    (∀ (state : State) a v fuel (r : ProposeResult), occupied state →
      proposeEdit state a v fuel = .ok r → occupied r.state) ∧
    (∀ (state : State) a, occupied state → inBounds state a →
      lookupCell state a ≠ .ok .null ∧ lookupCell state a ≠ .ok .undef) := by
  refine ⟨makeMatrix_lookup, fun _ _ _ _ hocc h => newValue_preserves_occupied hocc h,
    fun _ _ _ _ _ hocc h => proposeEdit_preserves_occupied hocc h, ?_⟩
  intro state a hocc hb
  obtain ⟨c, hc⟩ := hocc a hb
  rw [hc]
  exact ⟨fun he => Slot.noConfusion (Except.ok.inj he),
    fun he => Slot.noConfusion (Except.ok.inj he)⟩

/-- C10 witness: at a concrete 2×2 fresh grid the in-bounds slot A1 is
occupied by an empty-raw cell and is never the `null` slot. -/
theorem grid_occupancy_invariant_witness :
    lookupCell (makeMatrix 2 2) ⟨0, 1⟩ = .ok (.cell ⟨""⟩) ∧
      lookupCell (makeMatrix 2 2) ⟨0, 1⟩ ≠ .ok .null :=
  ⟨grid_occupancy_invariant.1 2 2 ⟨0, 1⟩ (by decide),
   (grid_occupancy_invariant.2.2.2 (makeMatrix 2 2) ⟨0, 1⟩
      (fun a ha => ⟨⟨""⟩, grid_occupancy_invariant.1 2 2 a ha⟩) (by decide)).1⟩

end Excel
